import Mathlib

/-!
# Verification of the job lifecycle in `app.py`

A shallow embedding of the job-tracking core of the media-pipeline tool:
the job store (`load_jobs` / `save_jobs`) and the lifecycle operations
`create_job`, `generate_colab_links`, `mark_step_complete` and
`download_result`.  Python dicts are embedded as association lists with
replace-or-append insertion (matching dict assignment and preservation of
insertion order); the nondeterministic library values (`uuid`, timestamps)
are threaded as explicit parameters; calls to `save_jobs` and
`shutil.copy2` are recorded as boolean flags in the operation results so
that "no store write" claims are statable.
-/

set_option autoImplicit false

namespace TakeCommand

/-- The `files` sub-dictionary of a job record. -/
structure Files where
  input : String
  current : String
  deriving Repr, DecidableEq, Inhabited

/-- The `parameters` sub-dictionary of a job record. -/
structure Parameters where
  voice_text : String
  emotion : String
  enhancement_type : String
  deriving Repr, DecidableEq, Inhabited

/-- A job record, exactly the dictionary built in `create_job`. -/
structure Job where
  id : String
  created : String
  status : String
  current_step : Nat
  pipeline : List String
  files : Files
  parameters : Parameters
  step_outputs : List (String × String)
  logs : List String
  deriving Repr, DecidableEq, Inhabited

/-- The job store: the decoded content of `jobs.json`, a Python dict from
job id to job record, embedded as an association list. -/
abbrev Store := List (String × Job)

/-- Dict lookup (`jobs[job_id]` guarded by `job_id in jobs`). -/
def assocFind? {α : Type} (s : List (String × α)) (k : String) : Option α :=
  match s with
  | [] => none
  | (k', v) :: rest => if k' = k then some v else assocFind? rest k

/-- Dict assignment `d[k] = v`: replace the binding if the key is present,
otherwise append it (Python dicts keep insertion order). -/
def assocInsert {α : Type} (s : List (String × α)) (k : String) (v : α) :
    List (String × α) :=
  match s with
  | [] => [(k, v)]
  | (k', v') :: rest =>
    if k' = k then (k, v) :: rest else (k', v') :: assocInsert rest k v

theorem assocFind?_insert_self {α : Type} (s : List (String × α)) (k : String)
    (v : α) : assocFind? (assocInsert s k v) k = some v := by
  induction s with
  | nil => simp [assocInsert, assocFind?]
  | cons p rest ih =>
    by_cases h : p.1 = k
    · simp [assocInsert, assocFind?, h]
    · simp [assocInsert, assocFind?, h, ih]

theorem assocFind?_insert_ne {α : Type} (s : List (String × α)) (k k' : String)
    (v : α) (hne : k' ≠ k) :
    assocFind? (assocInsert s k v) k' = assocFind? s k' := by
  induction s with
  | nil =>
    simp only [assocInsert, assocFind?]
    rw [if_neg (fun h => hne h.symm)]
  | cons p rest ih =>
    obtain ⟨k0, v0⟩ := p
    simp only [assocInsert, assocFind?]
    by_cases h : k0 = k
    · rw [if_pos h]
      simp only [assocFind?]
      rw [if_neg (fun h2 => hne h2.symm),
        if_neg (fun h2 => hne (h.symm.trans h2).symm)]
    · rw [if_neg h]
      simp only [assocFind?]
      by_cases h' : k0 = k'
      · rw [if_pos h', if_pos h']
      · rw [if_neg h', if_neg h', ih]

/-- Model of the library call `os.path.splitext(p)[1]`: the extension
starting at the last dot of the final path component; empty when that
component has no dot or consists of dots up to its last dot
(so `.bashrc` has no extension, as in CPython). -/
def splitextExt (p : String) : String :=
  let base := (p.splitOn "/").getLastD ""
  let cs := base.toList
  let after := (cs.reverse.takeWhile (fun c => c ≠ '.')).reverse
  if after.length = cs.length then ""
  else
    let preLen := cs.length - after.length - 1
    if (cs.take preLen).all (fun c => c = '.') then ""
    else String.mk (cs.drop preLen)

/-- The uploaded file handed to `create_job` by the UI: the Python object
is truthy (the `None` case is the `Option.none` of the caller) and may or
may not carry a `.name` attribute (`hasattr(uploaded_file, "name")`). -/
structure Upload where
  name : Option String
  deriving Repr, DecidableEq, Inhabited

/-- Result of `create_job`: the returned message, the job store and
artifact directory afterwards, and whether `save_jobs` / `shutil.copy2`
were called. -/
structure CreateResult where
  message : String
  jobs : Store
  artifacts : List String
  storeSaved : Bool
  artifactWritten : Bool
  deriving Repr, DecidableEq

/-- Result of `generate_colab_links` / `mark_step_complete`: the returned
message, the store afterwards, and whether `save_jobs` was called. -/
structure StepResult where
  message : String
  jobs : Store
  storeSaved : Bool
  deriving Repr, DecidableEq

/-- The filename under which `create_job` persists the upload: the job
id, the timestamp and the literal `_input`, followed by the extension of
the original name. -/
def savedFilename (job_id timestamp : String) (uf : Upload) : String :=
  job_id ++ "_" ++ timestamp ++ "_input" ++
    (match uf.name with
     | some n => splitextExt n
     | none => "")

/-- The pipeline steps joined with arrow separators, as in the
job-creation message. -/
def joinSteps (l : List String) : String := String.intercalate " → " l

/-- The job entry dictionary that `create_job` stores under the fresh id
(lines 55-72 of `app.py`). -/
def newJob (job_id timestamp : String) (uf : Upload) (pipeline_steps : List String)
    (voice_text emotion enhancement_type now : String) : Job :=
  { id := job_id
    created := timestamp
    status := "ready"
    current_step := 0
    pipeline := if pipeline_steps.isEmpty then [] else pipeline_steps
    files := { input := savedFilename job_id timestamp uf
               current := savedFilename job_id timestamp uf }
    parameters :=
      { voice_text := voice_text, emotion := emotion
        enhancement_type := enhancement_type }
    step_outputs := []
    logs := [now ++ " - Job created"] }

/-- Embeds `create_job` from `app.py`.  `jobs` and `artifacts` are the durable
state it loads; `job_id` and `timestamp`/`now` stand for the `uuid` and
`datetime.now()` library values. -/
def create_job (jobs : Store) (artifacts : List String)
    (uploaded_file : Option Upload) (pipeline_steps : List String)
    (voice_text emotion enhancement_type : String)
    (job_id timestamp now : String) : CreateResult :=
  match uploaded_file with
  | none =>
    { message := "❌ Please upload a file first!"
      jobs := jobs, artifacts := artifacts
      storeSaved := false, artifactWritten := false }
  | some uf =>
    { message := "✅ Job " ++ job_id ++ " created successfully!\nFile: " ++
        (match uf.name with
         | some n => n
         | none => "Uploaded File") ++
        "\nPipeline: " ++ joinSteps pipeline_steps
      jobs := assocInsert jobs job_id
        (newJob job_id timestamp uf pipeline_steps voice_text emotion
          enhancement_type now)
      artifacts := artifacts ++ [savedFilename job_id timestamp uf]
      storeSaved := true, artifactWritten := true }

/-- The `notebook_map.get(step_name, "general_process.ipynb")` lookup in
`generate_colab_links`. -/
def notebookMapGet (step_name : String) : String :=
  if step_name = "Voice Cloning & TTS" then "voice_clone.ipynb"
  else if step_name = "Lip Sync & Emotions" then "lip_sync.ipynb"
  else if step_name = "Split & Merge" then "split_merge.ipynb"
  else if step_name = "Audio Enhancement" then "audio_enhance.ipynb"
  else if step_name = "Video Enhancement" then "video_enhance.ipynb"
  else "general_process.ipynb"

/-- The Colab URL built in `generate_colab_links` (base URL plus the
`&`-joined parameter dict, in insertion order). -/
def colabUrl (job_id step_name current_file voice_text emotion
    enhancement_type notebook_file : String) : String :=
  "https://colab.research.google.com/github/livinghappy247/take-command/blob/main/notebooks/"
    ++ notebook_file
    ++ "?job_id=" ++ job_id
    ++ "&step=" ++ ((step_name.toLower).replace " " "_")
    ++ "&input_file=" ++ current_file
    ++ "&voice_text=" ++ voice_text
    ++ "&emotion=" ++ emotion
    ++ "&enhancement_type=" ++ enhancement_type

/-- The instructions markdown returned by `generate_colab_links`. -/
def instructionsText (current_step : Nat)
    (step_name notebook_file colab_url current_file : String) : String :=
  "\n🚀 **Ready for Step " ++ toString (current_step + 1) ++ ": " ++
    step_name ++ "**\n\n**Colab Link:** [Open " ++ notebook_file ++
    " in Colab](" ++ colab_url ++
    ")\n\n**Instructions:**\n1. Click the link above to open the Colab notebook\n2. Ensure GPU runtime is enabled (Runtime → Change runtime type → GPU)\n3. Run all cells in order\n4. The notebook will automatically process your file\n5. When complete, return here and click \"Check Progress\"\n\n**Current Input File:** "
    ++ current_file ++ "\n"

/-- Embeds `generate_colab_links` from `app.py`; `jobs` is the loaded
store and `now` the `datetime.now()` timestamp used for the log entry. -/
def generate_colab_links (jobs : Store) (job_id now : String) : StepResult :=
  match assocFind? jobs job_id with
  | none => { message := "❌ Job not found!", jobs := jobs, storeSaved := false }
  | some job =>
    if job.pipeline.length ≤ job.current_step then
      { message := "✅ All steps completed for this job!"
        jobs := jobs, storeSaved := false }
    else
      let step_name :=
        if job.pipeline.isEmpty then "General"
        else job.pipeline.getD job.current_step ""
      let notebook_file := notebookMapGet step_name
      let url := colabUrl job_id step_name job.files.current
        job.parameters.voice_text job.parameters.emotion
        job.parameters.enhancement_type notebook_file
      let job1 : Job :=
        { job with
          status := "waiting"
          logs := job.logs ++ [now ++ " - Colab link generated for " ++ step_name] }
      { message := instructionsText job.current_step step_name notebook_file
          url job1.files.current
        jobs := assocInsert jobs job_id job1
        storeSaved := true }

/-- The mutation `mark_step_complete` performs on the found job once the
`current_step >= len(pipeline)` guard has passed (lines 179-193 of
`app.py`): record the step output (the supplied name, or the placeholder
when the supplied name is falsy), increment `current_step`, append the
completion log entry, overwrite `files.current` only for a truthy name,
then set `status` to `completed` (with a final log entry) or `ready`. -/
def advanceJob (job_id output_filename now : String) (job : Job) : Job :=
  let step_name := job.pipeline.getD job.current_step ""
  let job1 : Job :=
    { job with
      step_outputs := assocInsert job.step_outputs step_name
        (if output_filename = "" then
          job_id ++ "_step_" ++ toString job.current_step ++ "_output"
        else output_filename)
      current_step := job.current_step + 1
      logs := job.logs ++ [now ++ " - Completed " ++ step_name] }
  let job2 : Job :=
    if output_filename = "" then job1
    else { job1 with files := { job1.files with current := output_filename } }
  if job.pipeline.length ≤ job2.current_step then
    { job2 with
      status := "completed"
      logs := job2.logs ++ [now ++ " - All steps completed!"] }
  else { job2 with status := "ready" }

/-- Embeds `mark_step_complete` from `app.py`; `jobs` is
the loaded store and `now` the `datetime.now()` timestamp of its log
entries.  The Python truthiness tests `output_filename or ...` and
`if output_filename:` become comparisons with the empty string. -/
def mark_step_complete (jobs : Store) (job_id output_filename now : String) :
    StepResult :=
  match assocFind? jobs job_id with
  | none => { message := "❌ Job not found!", jobs := jobs, storeSaved := false }
  | some job =>
    if job.pipeline.length ≤ job.current_step then
      { message := "✅ Job already completed!", jobs := jobs, storeSaved := false }
    else
      let job3 : Job := advanceJob job_id output_filename now job
      { message :=
          if job3.status = "completed" then
            "🎉 Job " ++ job_id ++ " completed successfully!\nFinal output: " ++
              job3.files.current
          else
            "✅ Step completed! Next: " ++ job3.pipeline.getD job3.current_step ""
              ++ "\nClick 'Generate Colab Link' to continue."
        jobs := assocInsert jobs job_id job3
        storeSaved := true }

/-- Embeds `download_result` from `app.py`.  `artifacts` is the set of
filenames present in the `outputs` directory, so the
`os.path.exists(os.path.join(OUTPUTS_DIR, ...))` test is membership; the
boolean records whether `save_jobs` was called (it never is). -/
def download_result (jobs : Store) (artifacts : List String)
    (job_id : String) : Option String × Bool :=
  match assocFind? jobs job_id with
  | none => (none, false)
  | some job =>
    if job.status ≠ "completed" then (none, false)
    else if job.files.current ∈ artifacts then
      (some ("outputs/" ++ job.files.current), false)
    else (none, false)

/-- Embeds `load_jobs` from `app.py`: the `try` body is the file read (`raw`,
`none` when `open`/read raises) followed by `json.load` and decoding into
job records (`decode`, `none` when parsing raises); any failure lands in
the `except` branch, which returns the empty dict. -/
def load_jobs (decode : String → Option Store) (raw : Option String) : Store :=
  match raw with
  | none => []
  | some s =>
    match decode s with
    | none => []
    | some jobs => jobs

/-- The invariant claimed in the spec:
`status == "completed"` iff `current_step == len(pipeline)`. -/
def statusInv (j : Job) : Prop :=
  j.status = "completed" ↔ j.current_step = j.pipeline.length

instance (j : Job) : Decidable (statusInv j) := by
  unfold statusInv; infer_instance

/-- Iterate `mark_step_complete` over a list of output filenames (a
sequence of AdvanceStep calls on the same job). -/
def advanceMany (jobs : Store) (job_id : String) (outs : List String)
    (now : String) : Store :=
  match outs with
  | [] => jobs
  | o :: rest => advanceMany (mark_step_complete jobs job_id o now).jobs job_id rest now

/-! ## Characterization lemmas for the operations -/

theorem advanceJob_current_step (job_id out now : String) (j : Job) :
    (advanceJob job_id out now j).current_step = j.current_step + 1 := by
  by_cases h : out = "" <;>
    by_cases h2 : j.pipeline.length ≤ j.current_step + 1 <;>
      simp [advanceJob, h, h2]

theorem advanceJob_pipeline (job_id out now : String) (j : Job) :
    (advanceJob job_id out now j).pipeline = j.pipeline := by
  by_cases h : out = "" <;>
    by_cases h2 : j.pipeline.length ≤ j.current_step + 1 <;>
      simp [advanceJob, h, h2]

theorem advanceJob_id (job_id out now : String) (j : Job) :
    (advanceJob job_id out now j).id = j.id := by
  by_cases h : out = "" <;>
    by_cases h2 : j.pipeline.length ≤ j.current_step + 1 <;>
      simp [advanceJob, h, h2]

theorem advanceJob_created (job_id out now : String) (j : Job) :
    (advanceJob job_id out now j).created = j.created := by
  by_cases h : out = "" <;>
    by_cases h2 : j.pipeline.length ≤ j.current_step + 1 <;>
      simp [advanceJob, h, h2]

theorem advanceJob_parameters (job_id out now : String) (j : Job) :
    (advanceJob job_id out now j).parameters = j.parameters := by
  by_cases h : out = "" <;>
    by_cases h2 : j.pipeline.length ≤ j.current_step + 1 <;>
      simp [advanceJob, h, h2]

theorem advanceJob_status (job_id out now : String) (j : Job) :
    (advanceJob job_id out now j).status =
      if j.pipeline.length ≤ j.current_step + 1 then "completed" else "ready" := by
  by_cases h : out = "" <;>
    by_cases h2 : j.pipeline.length ≤ j.current_step + 1 <;>
      simp [advanceJob, h, h2]

theorem advanceJob_files_empty (job_id now : String) (j : Job) :
    (advanceJob job_id "" now j).files = j.files := by
  by_cases h2 : j.pipeline.length ≤ j.current_step + 1 <;>
    simp [advanceJob, h2]

theorem advanceJob_files_current_nonempty (job_id out now : String) (j : Job)
    (h : out ≠ "") : (advanceJob job_id out now j).files.current = out := by
  by_cases h2 : j.pipeline.length ≤ j.current_step + 1 <;>
    simp [advanceJob, h, h2]

theorem advanceJob_step_outputs (job_id out now : String) (j : Job) :
    (advanceJob job_id out now j).step_outputs =
      assocInsert j.step_outputs (j.pipeline.getD j.current_step "")
        (if out = "" then
          job_id ++ "_step_" ++ toString j.current_step ++ "_output"
        else out) := by
  by_cases h : out = "" <;>
    by_cases h2 : j.pipeline.length ≤ j.current_step + 1 <;>
      simp [advanceJob, h, h2]

theorem mark_step_complete_notfound (jobs : Store) (job_id out now : String)
    (h : assocFind? jobs job_id = none) :
    mark_step_complete jobs job_id out now =
      { message := "❌ Job not found!", jobs := jobs, storeSaved := false } := by
  simp only [mark_step_complete, h]

theorem mark_step_complete_done (jobs : Store) (job_id out now : String)
    (j : Job) (h : assocFind? jobs job_id = some j)
    (hc : j.pipeline.length ≤ j.current_step) :
    mark_step_complete jobs job_id out now =
      { message := "✅ Job already completed!", jobs := jobs, storeSaved := false } := by
  simp only [mark_step_complete, h, if_pos hc]

theorem mark_step_complete_jobs_advance (jobs : Store) (job_id out now : String)
    (j : Job) (h : assocFind? jobs job_id = some j)
    (hc : j.current_step < j.pipeline.length) :
    (mark_step_complete jobs job_id out now).jobs =
      assocInsert jobs job_id (advanceJob job_id out now j) := by
  simp only [mark_step_complete, h, if_neg (not_le.mpr hc)]

theorem mark_step_complete_saved_advance (jobs : Store) (job_id out now : String)
    (j : Job) (h : assocFind? jobs job_id = some j)
    (hc : j.current_step < j.pipeline.length) :
    (mark_step_complete jobs job_id out now).storeSaved = true := by
  simp only [mark_step_complete, h, if_neg (not_le.mpr hc)]

theorem generate_colab_links_notfound (jobs : Store) (job_id now : String)
    (h : assocFind? jobs job_id = none) :
    generate_colab_links jobs job_id now =
      { message := "❌ Job not found!", jobs := jobs, storeSaved := false } := by
  simp only [generate_colab_links, h]

theorem generate_colab_links_done (jobs : Store) (job_id now : String)
    (j : Job) (h : assocFind? jobs job_id = some j)
    (hc : j.pipeline.length ≤ j.current_step) :
    generate_colab_links jobs job_id now =
      { message := "✅ All steps completed for this job!"
        jobs := jobs, storeSaved := false } := by
  simp only [generate_colab_links, h, if_pos hc]

theorem generate_colab_links_jobs (jobs : Store) (job_id now : String)
    (j : Job) (h : assocFind? jobs job_id = some j)
    (hc : j.current_step < j.pipeline.length) :
    (generate_colab_links jobs job_id now).jobs =
      assocInsert jobs job_id
        { j with
          status := "waiting"
          logs := j.logs ++ [now ++ " - Colab link generated for " ++
            (if j.pipeline.isEmpty then "General"
             else j.pipeline.getD j.current_step "")] } := by
  simp only [generate_colab_links, h, if_neg (not_le.mpr hc)]

theorem generate_colab_links_saved (jobs : Store) (job_id now : String)
    (j : Job) (h : assocFind? jobs job_id = some j)
    (hc : j.current_step < j.pipeline.length) :
    (generate_colab_links jobs job_id now).storeSaved = true := by
  simp only [generate_colab_links, h, if_neg (not_le.mpr hc)]

/-- For any list, the guard `pipeline_steps if pipeline_steps else []` is
the identity. -/
theorem if_isEmpty_eq_self (ps : List String) :
    (if ps.isEmpty then [] else ps) = ps := by
  cases ps <;> simp

/-! ## Concrete sample states used by witnesses and counterexamples -/

/-- A freshly created two-step job. -/
def sampleJob : Job :=
  { id := "j1"
    created := "20260101_120000"
    status := "ready"
    current_step := 0
    pipeline := ["Audio Enhancement", "Video Enhancement"]
    files := { input := "in.mp4", current := "in.mp4" }
    parameters := { voice_text := "", emotion := "neutral", enhancement_type := "basic" }
    step_outputs := []
    logs := ["12:00:00 - Job created"] }

/-- A store holding just `sampleJob`. -/
def sampleStore : Store := [("j1", sampleJob)]

/-- The sample job after both of its steps completed. -/
def doneJob : Job :=
  { sampleJob with
    current_step := 2
    status := "completed"
    files := { input := "in.mp4", current := "out.mp4" } }

/-- A store holding just `doneJob`. -/
def doneStore : Store := [("j1", doneJob)]

/-! ## Claims -/

/-- C3: once a job's `current_step` has reached `len(pipeline)` — which is
the case for every reachable job whose status is `completed` — any further
`mark_step_complete` call returns the fixed "already complete" result and
performs nothing at all: the store is returned exactly as loaded (so no
log entry is appended to any job) and `save_jobs` is never called. -/
theorem C3_advance_noop_when_complete (jobs : Store) (job_id out now : String)
    (j : Job) (h : assocFind? jobs job_id = some j)
    (hc : j.pipeline.length ≤ j.current_step) :
    mark_step_complete jobs job_id out now =
      { message := "✅ Job already completed!", jobs := jobs, storeSaved := false } :=
  mark_step_complete_done jobs job_id out now j h hc

theorem C3_advance_noop_when_complete_witness :
    assocFind? doneStore "j1" = some doneJob ∧
    doneJob.pipeline.length ≤ doneJob.current_step ∧
    mark_step_complete doneStore "j1" "x.mp4" "13:00:00" =
      { message := "✅ Job already completed!", jobs := doneStore, storeSaved := false } :=
  ⟨rfl, by decide,
    C3_advance_noop_when_complete doneStore "j1" "x.mp4" "13:00:00" doneJob rfl
      (by decide)⟩

/-- C7: `create_job` with no uploaded artifact returns the input-error
message and performs no mutation at all: the store and the artifact
directory are returned unchanged and neither `save_jobs` nor
`shutil.copy2` is called. -/
theorem C7_create_no_upload_noop (jobs : Store) (artifacts : List String)
    (ps : List String) (vt em et job_id ts now : String) :
    create_job jobs artifacts none ps vt em et job_id ts now =
      { message := "❌ Please upload a file first!", jobs := jobs
        artifacts := artifacts, storeSaved := false, artifactWritten := false } :=
  rfl

/-- C9: `load_jobs` returns the empty mapping whenever the durable state is
missing or unreadable (the read yields nothing) or is not a valid encoding
(the decode yields nothing), rather than propagating an error. -/
theorem C9_load_defaults_to_empty (decode : String → Option Store)
    (raw : Option String)
    (h : raw = none ∨ ∃ s, raw = some s ∧ decode s = none) :
    load_jobs decode raw = [] := by
  rcases h with h | ⟨s, hs, hd⟩
  · rw [h]; rfl
  · rw [hs]; simp [load_jobs, hd]

theorem C9_load_defaults_to_empty_witness :
    ((none : Option String) = none ∨
      ∃ s, (none : Option String) = some s ∧
        (fun (_ : String) => (none : Option Store)) s = none) ∧
    load_jobs (fun _ => none) none = [] :=
  ⟨Or.inl rfl, C9_load_defaults_to_empty (fun _ => none) none (Or.inl rfl)⟩

/-- C10: when a job still has pending steps, `mark_step_complete` with an
empty (falsy) output name records the placeholder name in `step_outputs`
but leaves `files` — in particular `files.current` — unchanged, and
`files.current` is overwritten exactly when a non-empty output name is
supplied. -/
theorem C10_files_current_overwritten_only_when_named (jobs : Store)
    (job_id now : String) (j : Job) (h : assocFind? jobs job_id = some j)
    (hc : j.current_step < j.pipeline.length) :
    (∀ j', assocFind? (mark_step_complete jobs job_id "" now).jobs job_id = some j' →
      j'.files = j.files ∧
      j'.step_outputs = assocInsert j.step_outputs (j.pipeline.getD j.current_step "")
        (job_id ++ "_step_" ++ toString j.current_step ++ "_output")) ∧
    (∀ out, out ≠ "" →
      ∀ j', assocFind? (mark_step_complete jobs job_id out now).jobs job_id = some j' →
        j'.files.current = out) := by
  constructor
  · intro j' hj'
    rw [mark_step_complete_jobs_advance jobs job_id "" now j h hc,
      assocFind?_insert_self] at hj'
    obtain rfl := Option.some.inj hj'
    refine ⟨advanceJob_files_empty job_id now j, ?_⟩
    have := advanceJob_step_outputs job_id "" now j
    simpa using this
  · intro out hout j' hj'
    rw [mark_step_complete_jobs_advance jobs job_id out now j h hc,
      assocFind?_insert_self] at hj'
    obtain rfl := Option.some.inj hj'
    exact advanceJob_files_current_nonempty job_id out now j hout

/-- The sample job after one advance call with an empty output name. -/
def emptyAdvJob : Job :=
  (assocFind? (mark_step_complete sampleStore "j1" "" "12:30:00").jobs "j1").getD default

theorem C10_files_current_overwritten_only_when_named_witness :
    sampleJob.current_step < sampleJob.pipeline.length ∧
    emptyAdvJob.files = sampleJob.files ∧
    emptyAdvJob.step_outputs =
      assocInsert sampleJob.step_outputs (sampleJob.pipeline.getD sampleJob.current_step "")
        ("j1" ++ "_step_" ++ toString sampleJob.current_step ++ "_output") :=
  ⟨by decide,
    ((C10_files_current_overwritten_only_when_named sampleStore "j1" "12:30:00"
      sampleJob rfl (by decide)).1 emptyAdvJob rfl).1,
    ((C10_files_current_overwritten_only_when_named sampleStore "j1" "12:30:00"
      sampleJob rfl (by decide)).1 emptyAdvJob rfl).2⟩

/-- C8: `generate_colab_links` resolves the notebook for a step name
through the fixed table — the five named steps map to their dedicated
notebooks and every other step name falls back to the generic
`general_process` notebook — and an unrecognized step name is never an
error: whenever the job exists and has a pending step, the operation still
proceeds (it saves the store and reports the resolved notebook in its
instructions). -/
theorem C8_notebook_table (jobs : Store) (job_id now : String) :
    notebookMapGet "Voice Cloning & TTS" = "voice_clone.ipynb" ∧
    notebookMapGet "Lip Sync & Emotions" = "lip_sync.ipynb" ∧
    notebookMapGet "Split & Merge" = "split_merge.ipynb" ∧
    notebookMapGet "Audio Enhancement" = "audio_enhance.ipynb" ∧
    notebookMapGet "Video Enhancement" = "video_enhance.ipynb" ∧
    (∀ s, s ∉ ["Voice Cloning & TTS", "Lip Sync & Emotions", "Split & Merge",
        "Audio Enhancement", "Video Enhancement"] →
      notebookMapGet s = "general_process.ipynb") ∧
    (∀ j, assocFind? jobs job_id = some j → j.current_step < j.pipeline.length →
      (generate_colab_links jobs job_id now).storeSaved = true) := by
  refine ⟨rfl, rfl, rfl, rfl, rfl, ?_, ?_⟩
  · intro s hs
    simp only [List.mem_cons, List.not_mem_nil, or_false, not_or] at hs
    obtain ⟨h1, h2, h3, h4, h5⟩ := hs
    simp [notebookMapGet, h1, h2, h3, h4, h5]
  · intro j hj hc
    exact generate_colab_links_saved jobs job_id now j hj hc

theorem C8_notebook_table_witness :
    ("Color Grading" ∉ ["Voice Cloning & TTS", "Lip Sync & Emotions",
        "Split & Merge", "Audio Enhancement", "Video Enhancement"]) ∧
    notebookMapGet "Color Grading" = "general_process.ipynb" ∧
    sampleJob.current_step < sampleJob.pipeline.length ∧
    (generate_colab_links sampleStore "j1" "13:00:00").storeSaved = true :=
  ⟨by decide,
    (C8_notebook_table sampleStore "j1" "13:00:00").2.2.2.2.2.1 "Color Grading"
      (by decide),
    by decide,
    (C8_notebook_table sampleStore "j1" "13:00:00").2.2.2.2.2.2 sampleJob rfl
      (by decide)⟩

/-- C5: for a job present in the store with a pending step,
`generate_colab_links` rewrites the store with only that job changed, and
on that job it only sets `status` to `waiting` and appends exactly one log
entry; `current_step`, `files`, `pipeline`, `parameters` and
`step_outputs` are untouched, every other job is untouched, and the store
is saved. -/
theorem C5_generate_frame (jobs : Store) (job_id now : String) (j : Job)
    (h : assocFind? jobs job_id = some j)
    (hc : j.current_step < j.pipeline.length) :
    (∀ j', assocFind? (generate_colab_links jobs job_id now).jobs job_id = some j' →
      j'.status = "waiting" ∧ j'.current_step = j.current_step ∧
      j'.files = j.files ∧ j'.pipeline = j.pipeline ∧
      j'.parameters = j.parameters ∧ j'.step_outputs = j.step_outputs ∧
      j'.logs = j.logs ++ [now ++ " - Colab link generated for " ++
        (if j.pipeline.isEmpty then "General" else j.pipeline.getD j.current_step "")]) ∧
    (∀ k, k ≠ job_id →
      assocFind? (generate_colab_links jobs job_id now).jobs k = assocFind? jobs k) ∧
    (generate_colab_links jobs job_id now).storeSaved = true := by
  refine ⟨?_, ?_, generate_colab_links_saved jobs job_id now j h hc⟩
  · intro j' hj'
    rw [generate_colab_links_jobs jobs job_id now j h hc,
      assocFind?_insert_self] at hj'
    obtain rfl := Option.some.inj hj'
    exact ⟨rfl, rfl, rfl, rfl, rfl, rfl, rfl⟩
  · intro k hk
    rw [generate_colab_links_jobs jobs job_id now j h hc,
      assocFind?_insert_ne jobs job_id k _ hk]

/-- The sample job after one `generate_colab_links` call. -/
def waitingJob : Job :=
  (assocFind? (generate_colab_links sampleStore "j1" "13:00:00").jobs "j1").getD default

theorem C5_generate_frame_witness :
    sampleJob.current_step < sampleJob.pipeline.length ∧
    waitingJob.status = "waiting" ∧
    waitingJob.current_step = sampleJob.current_step ∧
    waitingJob.step_outputs = sampleJob.step_outputs ∧
    (generate_colab_links sampleStore "j1" "13:00:00").storeSaved = true :=
  ⟨by decide,
    ((C5_generate_frame sampleStore "j1" "13:00:00" sampleJob rfl (by decide)).1
      waitingJob rfl).1,
    ((C5_generate_frame sampleStore "j1" "13:00:00" sampleJob rfl (by decide)).1
      waitingJob rfl).2.1,
    ((C5_generate_frame sampleStore "j1" "13:00:00" sampleJob rfl (by decide)).1
      waitingJob rfl).2.2.2.2.2.1,
    (C5_generate_frame sampleStore "j1" "13:00:00" sampleJob rfl (by decide)).2.2⟩

/-- C6: `download_result` yields an artifact handle exactly when the job id
is in the store, that job's status is `completed`, and the artifact named
by `files.current` exists in the outputs directory; in every other case —
including an unknown job id — it yields nothing; in the positive case the
handle is the path to `files.current`, and `save_jobs` is never called. -/
theorem C6_download_iff (jobs : Store) (artifacts : List String)
    (job_id : String) :
    ((download_result jobs artifacts job_id).1.isSome ↔
      ∃ j, assocFind? jobs job_id = some j ∧ j.status = "completed" ∧
        j.files.current ∈ artifacts) ∧
    (∀ j, assocFind? jobs job_id = some j → j.status = "completed" →
      j.files.current ∈ artifacts →
      (download_result jobs artifacts job_id).1 =
        some ("outputs/" ++ j.files.current)) ∧
    (download_result jobs artifacts job_id).2 = false := by
  refine ⟨?_, ?_, ?_⟩
  · cases hj : assocFind? jobs job_id with
    | none => simp [download_result, hj]
    | some j =>
      by_cases hs : j.status = "completed"
      · by_cases hm : j.files.current ∈ artifacts
        · simp [download_result, hj, hs, hm]
        · simp [download_result, hj, hs, hm]
      · simp [download_result, hj, hs]
  · intro j hj hs hm
    simp [download_result, hj, hs, hm]
  · cases hj : assocFind? jobs job_id with
    | none => simp [download_result, hj]
    | some j =>
      by_cases hs : j.status = "completed"
      · by_cases hm : j.files.current ∈ artifacts
        · simp [download_result, hj, hs, hm]
        · simp [download_result, hj, hs, hm]
      · simp [download_result, hj, hs]

theorem C6_download_iff_witness :
    doneJob.status = "completed" ∧
    doneJob.files.current ∈ ["out.mp4"] ∧
    (download_result doneStore ["out.mp4"] "j1").1 =
      some ("outputs/" ++ doneJob.files.current) ∧
    (download_result doneStore ["out.mp4"] "j1").2 = false :=
  ⟨rfl, by decide,
    (C6_download_iff doneStore ["out.mp4"] "j1").2.1 doneJob rfl rfl (by decide),
    (C6_download_iff doneStore ["out.mp4"] "j1").2.2⟩

/-- C4: across any operations, a job's `current_step` is monotone and
moves only in single increments, and only `mark_step_complete` moves it:
an advance either leaves the job record exactly as it was (terminal no-op)
or increments `current_step` by exactly one while keeping the pipeline,
and it preserves the bound `current_step ≤ len(pipeline)`; a freshly
created job starts at `current_step = 0` (so the bound holds at creation);
`generate_colab_links` never changes any job's `current_step`; and
`create_job` leaves every other job untouched. -/
theorem C4_current_step_monotone :
    (∀ jobs job_id out now j j',
      assocFind? jobs job_id = some j →
      assocFind? (mark_step_complete jobs job_id out now).jobs job_id = some j' →
      j' = j ∨ (j'.current_step = j.current_step + 1 ∧ j'.pipeline = j.pipeline ∧
        j.current_step < j.pipeline.length)) ∧
    (∀ jobs job_id out now j j',
      assocFind? jobs job_id = some j → j.current_step ≤ j.pipeline.length →
      assocFind? (mark_step_complete jobs job_id out now).jobs job_id = some j' →
      j'.current_step ≤ j'.pipeline.length) ∧
    (∀ jobs artifacts uf ps vt em et job_id ts now j,
      assocFind? (create_job jobs artifacts (some uf) ps vt em et job_id ts now).jobs
        job_id = some j →
      j.current_step = 0) ∧
    (∀ jobs job_id now k j j',
      assocFind? jobs k = some j →
      assocFind? (generate_colab_links jobs job_id now).jobs k = some j' →
      j'.current_step = j.current_step) ∧
    (∀ jobs artifacts uploaded ps vt em et job_id ts now k, k ≠ job_id →
      assocFind? (create_job jobs artifacts uploaded ps vt em et job_id ts now).jobs k =
        assocFind? jobs k) := by
  have step : ∀ (jobs : Store) (job_id out now : String) (j j' : Job),
      assocFind? jobs job_id = some j →
      assocFind? (mark_step_complete jobs job_id out now).jobs job_id = some j' →
      j' = j ∨ (j'.current_step = j.current_step + 1 ∧ j'.pipeline = j.pipeline ∧
        j.current_step < j.pipeline.length) := by
    intro jobs job_id out now j j' hj hj'
    by_cases hc : j.pipeline.length ≤ j.current_step
    · left
      rw [mark_step_complete_done jobs job_id out now j hj hc] at hj'
      exact (Option.some.inj (hj.symm.trans hj')).symm
    · right
      have hlt := not_le.mp hc
      rw [mark_step_complete_jobs_advance jobs job_id out now j hj hlt,
        assocFind?_insert_self] at hj'
      obtain rfl := Option.some.inj hj'
      exact ⟨advanceJob_current_step job_id out now j,
        advanceJob_pipeline job_id out now j, hlt⟩
  refine ⟨step, ?_, ?_, ?_, ?_⟩
  · intro jobs job_id out now j j' hj hb hj'
    rcases step jobs job_id out now j j' hj hj' with rfl | ⟨h1, h2, h3⟩
    · exact hb
    · rw [h1, h2]; omega
  · intro jobs artifacts uf ps vt em et job_id ts now j hj
    simp only [create_job] at hj
    rw [assocFind?_insert_self] at hj
    obtain rfl := Option.some.inj hj
    rfl
  · intro jobs job_id now k j j' hj hj'
    cases hj0 : assocFind? jobs job_id with
    | none =>
      rw [generate_colab_links_notfound jobs job_id now hj0] at hj'
      obtain rfl := Option.some.inj (hj.symm.trans hj')
      rfl
    | some jg =>
      by_cases hc : jg.pipeline.length ≤ jg.current_step
      · rw [generate_colab_links_done jobs job_id now jg hj0 hc] at hj'
        obtain rfl := Option.some.inj (hj.symm.trans hj')
        rfl
      · have hlt := not_le.mp hc
        rw [generate_colab_links_jobs jobs job_id now jg hj0 hlt] at hj'
        by_cases hk : k = job_id
        · subst hk
          rw [assocFind?_insert_self] at hj'
          obtain rfl := Option.some.inj hj'
          obtain rfl := Option.some.inj (hj.symm.trans hj0)
          rfl
        · rw [assocFind?_insert_ne jobs job_id k _ hk] at hj'
          obtain rfl := Option.some.inj (hj.symm.trans hj')
          rfl
  · intro jobs artifacts uploaded ps vt em et job_id ts now k hk
    cases uploaded with
    | none => rfl
    | some uf =>
      simp only [create_job]
      exact assocFind?_insert_ne jobs job_id k _ hk

/-- The sample job after one advance call with a named output. -/
def namedAdvJob : Job :=
  (assocFind? (mark_step_complete sampleStore "j1" "step1.mp4" "12:30:00").jobs "j1").getD
    default

theorem C4_current_step_monotone_witness :
    assocFind? sampleStore "j1" = some sampleJob ∧
    (namedAdvJob = sampleJob ∨
      (namedAdvJob.current_step = sampleJob.current_step + 1 ∧
        namedAdvJob.pipeline = sampleJob.pipeline ∧
        sampleJob.current_step < sampleJob.pipeline.length)) ∧
    namedAdvJob.current_step ≤ namedAdvJob.pipeline.length :=
  ⟨rfl,
    C4_current_step_monotone.1 sampleStore "j1" "step1.mp4" "12:30:00" sampleJob
      namedAdvJob rfl rfl,
    C4_current_step_monotone.2.1 sampleStore "j1" "step1.mp4" "12:30:00" sampleJob
      namedAdvJob rfl (by decide) rfl⟩

/-- The store produced by creating a job with an empty pipeline. -/
def c1Store : Store :=
  (create_job [] [] (some { name := none }) [] "" "neutral" "basic" "j0"
    "20260101_120000" "12:00:00").jobs

/-- The empty-pipeline job just created in `c1Store`. -/
def c1Job : Job := (assocFind? c1Store "j0").getD default

/-- C1 counterexample: a job created with an empty pipeline — reachable
through `create_job`, whose pipeline argument may be the empty selection —
has `current_step = len(pipeline) = 0` but status `ready`, so the claimed
biconditional fails immediately after `create_job`. -/
theorem C1_counterexample_empty_pipeline :
    assocFind? c1Store "j0" = some c1Job ∧
    c1Job.current_step = c1Job.pipeline.length ∧
    c1Job.status ≠ "completed" ∧
    ¬ statusInv c1Job := by
  refine ⟨rfl, rfl, by decide, ?_⟩
  intro h
  exact absurd (h.mpr rfl) (by decide)

/-- C1 (amended): the biconditional `status = "completed"` iff
`current_step = len(pipeline)` holds immediately after `create_job`
whenever the chosen pipeline is nonempty, and — for arbitrary stores in
which it already holds — it is preserved, job by job, by every
`mark_step_complete` and every `generate_colab_links` call; only creation
with an empty pipeline violates it. -/
theorem C1_amended_status_iff_steps_done :
    (∀ jobs artifacts uf ps vt em et job_id ts now j, ps ≠ [] →
      assocFind? (create_job jobs artifacts (some uf) ps vt em et job_id ts now).jobs
        job_id = some j →
      statusInv j) ∧
    (∀ jobs job_id out now,
      (∀ k j, assocFind? jobs k = some j → statusInv j) →
      ∀ k j', assocFind? (mark_step_complete jobs job_id out now).jobs k = some j' →
      statusInv j') ∧
    (∀ jobs job_id now,
      (∀ k j, assocFind? jobs k = some j → statusInv j) →
      ∀ k j', assocFind? (generate_colab_links jobs job_id now).jobs k = some j' →
      statusInv j') := by
  refine ⟨?_, ?_, ?_⟩
  · intro jobs artifacts uf ps vt em et job_id ts now j hps hj
    simp only [create_job] at hj
    rw [assocFind?_insert_self] at hj
    obtain rfl := Option.some.inj hj
    unfold statusInv
    constructor
    · intro h
      have hr : "ready" = "completed" := h
      simp at hr
    · intro h
      have hp : (newJob job_id ts uf ps vt em et now).pipeline = ps := by
        simp only [newJob]
        exact if_isEmpty_eq_self ps
      rw [hp] at h
      have h0 : (0 : Nat) = ps.length := h
      exact absurd (List.length_eq_zero.mp h0.symm) hps
  · intro jobs job_id out now hinv k j' hj'
    cases hj0 : assocFind? jobs job_id with
    | none =>
      rw [mark_step_complete_notfound jobs job_id out now hj0] at hj'
      exact hinv k j' hj'
    | some jt =>
      by_cases hc : jt.pipeline.length ≤ jt.current_step
      · rw [mark_step_complete_done jobs job_id out now jt hj0 hc] at hj'
        exact hinv k j' hj'
      · have hlt := not_le.mp hc
        rw [mark_step_complete_jobs_advance jobs job_id out now jt hj0 hlt] at hj'
        by_cases hk : k = job_id
        · subst hk
          rw [assocFind?_insert_self] at hj'
          obtain rfl := Option.some.inj hj'
          unfold statusInv
          rw [advanceJob_status, advanceJob_current_step, advanceJob_pipeline]
          by_cases hfin : jt.pipeline.length ≤ jt.current_step + 1
          · rw [if_pos hfin]
            constructor
            · intro _; omega
            · intro _; rfl
          · rw [if_neg hfin]
            constructor
            · intro h; simp at h
            · intro h; exact absurd h (by omega)
        · rw [assocFind?_insert_ne jobs job_id k _ hk] at hj'
          exact hinv k j' hj'
  · intro jobs job_id now hinv k j' hj'
    cases hj0 : assocFind? jobs job_id with
    | none =>
      rw [generate_colab_links_notfound jobs job_id now hj0] at hj'
      exact hinv k j' hj'
    | some jg =>
      by_cases hc : jg.pipeline.length ≤ jg.current_step
      · rw [generate_colab_links_done jobs job_id now jg hj0 hc] at hj'
        exact hinv k j' hj'
      · have hlt := not_le.mp hc
        rw [generate_colab_links_jobs jobs job_id now jg hj0 hlt] at hj'
        by_cases hk : k = job_id
        · subst hk
          rw [assocFind?_insert_self] at hj'
          obtain rfl := Option.some.inj hj'
          unfold statusInv
          constructor
          · intro h; simp at h
          · intro h
            simp only at h
            exact absurd h (by omega)
        · rw [assocFind?_insert_ne jobs job_id k _ hk] at hj'
          exact hinv k j' hj'

/-- The store produced by creating a job with a one-step pipeline. -/
def c1aStore : Store :=
  (create_job [] [] (some { name := none }) ["Audio Enhancement"] "" "neutral"
    "basic" "j2" "20260101_120000" "12:00:00").jobs

/-- The one-step job just created in `c1aStore`. -/
def c1aJob : Job := (assocFind? c1aStore "j2").getD default

theorem C1_amended_status_iff_steps_done_witness :
    (["Audio Enhancement"] ≠ ([] : List String)) ∧ statusInv c1aJob :=
  ⟨by decide,
    (C1_amended_status_iff_steps_done).1 [] [] { name := none } ["Audio Enhancement"]
      "" "neutral" "basic" "j2" "20260101_120000" "12:00:00" c1aJob (by decide) rfl⟩

/-- Running `mark_step_complete` once per entry of `outs` starting from a
job whose remaining steps number exactly `outs.length` ends with the job
completed, and its current artifact is the last non-empty output name of
`outs` (the `foldl`), defaulting to the artifact it started with. -/
theorem advanceMany_complete (outs : List String) :
    ∀ (jobs : Store) (job_id now : String) (j : Job),
      assocFind? jobs job_id = some j →
      j.current_step + outs.length = j.pipeline.length →
      outs ≠ [] →
      ∃ j', assocFind? (advanceMany jobs job_id outs now) job_id = some j' ∧
        j'.status = "completed" ∧
        j'.files.current =
          outs.foldl (fun acc o => if o = "" then acc else o) j.files.current := by
  induction outs with
  | nil => intro jobs job_id now j _ _ hne; exact absurd rfl hne
  | cons o rest ih =>
    intro jobs job_id now j hj hlen _
    have hc : j.current_step < j.pipeline.length := by
      simp only [List.length_cons] at hlen; omega
    have hfind : assocFind? (mark_step_complete jobs job_id o now).jobs job_id =
        some (advanceJob job_id o now j) := by
      rw [mark_step_complete_jobs_advance jobs job_id o now j hj hc,
        assocFind?_insert_self]
    have hcur : (advanceJob job_id o now j).files.current =
        if o = "" then j.files.current else o := by
      by_cases ho : o = ""
      · subst ho; rw [if_pos rfl, advanceJob_files_empty]
      · rw [if_neg ho, advanceJob_files_current_nonempty job_id o now j ho]
    cases rest with
    | nil =>
      refine ⟨advanceJob job_id o now j, hfind, ?_, ?_⟩
      · have hfin : j.pipeline.length ≤ j.current_step + 1 := by
          simp only [List.length_cons, List.length_nil] at hlen; omega
        rw [advanceJob_status, if_pos hfin]
      · rw [List.foldl_cons, List.foldl_nil, hcur]
    | cons o2 rest2 =>
      have hlen2 : (advanceJob job_id o now j).current_step + (o2 :: rest2).length =
          (advanceJob job_id o now j).pipeline.length := by
        rw [advanceJob_current_step, advanceJob_pipeline]
        simp only [List.length_cons] at hlen ⊢
        omega
      obtain ⟨j', h1, h2, h3⟩ := ih (mark_step_complete jobs job_id o now).jobs job_id
        now (advanceJob job_id o now j) hfind hlen2 (by simp)
      refine ⟨j', h1, h2, ?_⟩
      rw [h3, hcur]
      simp only [List.foldl_cons]

/-- The last non-empty name in `outs`, defaulting to `dflt`: what
`files.current` ends up as after supplying `outs` to successive advance
calls. -/
def lastNonEmptyD (outs : List String) (dflt : String) : String :=
  outs.foldl (fun acc o => if o = "" then acc else o) dflt

/-- The store produced by creating a one-step job and completing its only
step with an empty output name. -/
def c2Store : Store :=
  (mark_step_complete
    (create_job [] [] (some { name := none }) ["Audio Enhancement"] "" "neutral"
      "basic" "j1" "20260101_120000" "12:00:00").jobs
    "j1" "" "12:30:00").jobs

/-- The job of `c2Store`. -/
def c2Job : Job := (assocFind? c2Store "j1").getD default

/-- C2 counterexample: a job created with a one-step pipeline, advanced
once with no output name, is completed, and the placeholder name was
recorded in `step_outputs` — but `files.current` still holds the original
input artifact name, not the placeholder the claim promises. -/
theorem C2_counterexample_placeholder_not_in_files :
    assocFind? c2Store "j1" = some c2Job ∧
    c2Job.status = "completed" ∧
    c2Job.step_outputs = [("Audio Enhancement", "j1_step_0_output")] ∧
    c2Job.files.current = "j1_20260101_120000_input" ∧
    c2Job.files.current ≠ "j1_step_0_output" :=
  ⟨rfl, rfl, rfl, rfl, by decide⟩

/-- C2 (amended): for a job created with a nonempty pipeline of `n` steps,
after `n` successful `mark_step_complete` calls the job's status is
`completed` and `files.current` is the last non-empty output name supplied
among those calls, or the saved input artifact name when every call
supplied an empty name (the placeholder is recorded in `step_outputs`
only, never in `files.current`). -/
theorem C2_amended_full_run_final_artifact (jobs : Store)
    (artifacts : List String) (uf : Upload) (ps : List String)
    (vt em et job_id ts cnow now : String) (outs : List String)
    (hps : ps ≠ []) (hlen : outs.length = ps.length) :
    ∃ j', assocFind?
        (advanceMany (create_job jobs artifacts (some uf) ps vt em et job_id ts cnow).jobs
          job_id outs now) job_id = some j' ∧
      j'.status = "completed" ∧
      j'.files.current = lastNonEmptyD outs (savedFilename job_id ts uf) := by
  have houts : outs ≠ [] := by
    intro h
    subst h
    simp only [List.length_nil] at hlen
    exact hps (List.length_eq_zero.mp hlen.symm)
  have hfind : assocFind?
      (create_job jobs artifacts (some uf) ps vt em et job_id ts cnow).jobs job_id =
      some (newJob job_id ts uf ps vt em et cnow) := by
    simp only [create_job]
    exact assocFind?_insert_self jobs job_id _
  have hsteps : (newJob job_id ts uf ps vt em et cnow).current_step + outs.length =
      (newJob job_id ts uf ps vt em et cnow).pipeline.length := by
    simp only [newJob, if_isEmpty_eq_self]
    omega
  exact advanceMany_complete outs _ job_id now _ hfind hsteps houts

theorem C2_amended_full_run_final_artifact_witness :
    ((["Audio Enhancement", "Video Enhancement"] : List String) ≠ []) ∧
    (["", "final.mp4"] : List String).length =
      (["Audio Enhancement", "Video Enhancement"] : List String).length ∧
    (∃ j', assocFind?
        (advanceMany
          (create_job [] [] (some { name := none })
            ["Audio Enhancement", "Video Enhancement"] "" "neutral" "basic" "j9"
            "20260101_120000" "12:00:00").jobs
          "j9" ["", "final.mp4"] "12:30:00") "j9" = some j' ∧
      j'.status = "completed" ∧
      j'.files.current =
        lastNonEmptyD ["", "final.mp4"]
          (savedFilename "j9" "20260101_120000" { name := none })) :=
  ⟨by decide, by decide,
    C2_amended_full_run_final_artifact [] [] { name := none }
      ["Audio Enhancement", "Video Enhancement"] "" "neutral" "basic" "j9"
      "20260101_120000" "12:00:00" "12:30:00" ["", "final.mp4"] (by decide)
      (by decide)⟩

end TakeCommand
